import Mathlib

/-!
Shallow embedding of the editing core of `lapce-data/src/editor.rs`
(`LapceEditorBufferData` and the free helper functions at the bottom of the
file), together with models of the external collaborators it calls into
(the buffer facade, `xi_rope` deltas, the completion/hover session data and
the snippet parser), which are modelled from the specification where their
code is not part of this repository slice.
-/

namespace LapceEditor

/-- LSP protocol position (`lsp_types::Position`): a line/character pair in
the remote analysis service's coordinate system. -/
structure Pos where
  line : Nat
  character : Nat
deriving DecidableEq, Repr

/-- Modelled from the spec: a `Delta` is "an immutable description of a
transformation from one buffer revision to the next (ordered list of
retain/insert/delete ops over offset ranges)".  One op replaces the range
`[start, finish)` with `insLen` new characters. -/
structure SimpleEdit where
  start : Nat
  finish : Nat
  insLen : Nat
deriving DecidableEq, Repr

/-- A rope delta is an ordered list of replacement ops (model of
`xi_rope::RopeDelta`). -/
def RopeDelta := List SimpleEdit

/-- Modelled from the spec: remapping one captured offset through a single
replacement op, "directionally biased (left/right) at insertion points" —
an offset sitting exactly at the op's start stays before the inserted text
when `after` is `false` and moves after it when `after` is `true`. -/
def SimpleEdit.transform (e : SimpleEdit) (after : Bool) (o : Nat) : Nat :=
  if o < e.start then o
  else if o = e.start then cond after (e.start + e.insLen) e.start
  else if o < e.finish then e.start + e.insLen
  else o - (e.finish - e.start) + e.insLen

/-- Modelled from the spec: `xi_rope::Transformer::transform` replays the
delta's ops in order to remap a previously captured offset into the
post-edit coordinate space. -/
def transform (delta : RopeDelta) (o : Nat) (after : Bool) : Nat :=
  delta.foldl (fun acc e => e.transform after acc) o

/-- Editor mode (`lapce_core::mode::Mode`), restricted to the variants the
embedded functions inspect. -/
inductive Mode where
  | Normal
  | Insert
  | Visual
deriving DecidableEq, Repr

/-- Model of `lapce_core::cursor::Cursor`: the caret offset, the insert-mode
selection region (when in insert mode), the mode, and the
`history_selections` list cleared by `run_command`'s post-step. -/
structure Cursor where
  offset : Nat
  insertSel : Option (Nat × Nat)
  mode : Mode
  history_selections : List (Nat × Nat)
deriving DecidableEq, Repr

/-- Modelled from the spec: `Cursor::apply_delta` remaps the cursor's
regions through the delta with the standard insertion-drift rule ("text
inserted at a region boundary is included in the region by default"). -/
def Cursor.apply_delta (c : Cursor) (delta : RopeDelta) : Cursor :=
  { c with
    offset := transform delta c.offset true
    insertSel := c.insertSel.map (fun p => (transform delta p.1 false, transform delta p.2 true)) }

/-- Modelled from the spec: `Cursor::set_insert` switches the cursor to
insert mode with the given single-region selection; the caret sits at the
region's end. -/
def Cursor.set_insert (c : Cursor) (sel : Nat × Nat) : Cursor :=
  { c with offset := sel.2, insertSel := some sel, mode := Mode.Insert }

/-- Modelled from the spec: `Cursor::update_selection` replaces the
cursor's selection with the remapped one. -/
def Cursor.update_selection (c : Cursor) (sel : Nat × Nat) : Cursor :=
  { c with offset := sel.2, insertSel := some sel }

/-- Model of the buffer facade (`lapce_core::buffer::Buffer`), an external
collaborator: each field is one of the query functions the editor core
calls.  `offset_of_position` is partial — it "fails (returns none) if the
position is out of range or not representable". -/
structure Buffer where
  offset_of_position : Pos → Option Nat
  offset_to_position : Nat → Option Pos
  prev_code_boundary : Nat → Nat
  next_code_boundary : Nat → Nat
  slice : Nat → Nat → String

/-- Model of `Document`: the buffer facade plus the identity, revision and
load state the editor core reads, and a log of the deltas produced by
`do_raw_edit` (one entry per call). -/
structure Document where
  buffer : Buffer
  content : Nat
  isFileContent : Bool
  loaded : Bool
  id : Nat
  rev : Nat
  editLog : List RopeDelta

/-- Modelled from the spec: `Document::do_raw_edit` applies an edit set (a
list of (selection-to-replace, replacement-text) pairs) atomically and
"produces exactly one Delta per call", bumping the revision. -/
def Document.do_raw_edit (doc : Document) (edits : List ((Nat × Nat) × String)) :
    RopeDelta × Document :=
  let delta : RopeDelta :=
    edits.map (fun e => SimpleEdit.mk (min e.1.1 e.1.2) (max e.1.1 e.1.2) e.2.length)
  (delta, { doc with rev := doc.rev + 1, editLog := doc.editLog ++ [delta] })

/-- Completion session status (`CompletionStatus`). -/
inductive CompletionStatus where
  | Inactive
  | Started
  | Active
deriving DecidableEq, Repr

/-- Model of `CompletionData`: buffer id + anchor offset + input cache keys
+ monotonic request id + status.  `requests_sent` logs every outbound
request as a (request id, input key) pair. -/
structure CompletionData where
  status : CompletionStatus
  offset : Nat
  buffer_id : Nat
  input : String
  input_items : List String
  request_id : Nat
  requests_sent : List (Nat × String)
deriving DecidableEq, Repr

/-- Modelled from the spec: `CompletionData::cancel` moves a non-inactive
session to `Inactive`. -/
def CompletionData.cancel (c : CompletionData) : CompletionData :=
  if c.status = CompletionStatus.Inactive then c
  else { c with status := CompletionStatus.Inactive }

/-- Modelled from the spec: `CompletionData::update_input` records the new
input substring; the cached input→results mapping is kept (session
reuse). -/
def CompletionData.update_input (c : CompletionData) (input : String) : CompletionData :=
  { c with input := input }

/-- Modelled from the spec: `CompletionData::request` issues one outbound
completion request carrying the given request id and input key (the proxy
call is fire-and-forget; we log it). -/
def CompletionData.request (c : CompletionData) (reqId : Nat) (input : String) :
    CompletionData :=
  { c with requests_sent := c.requests_sent ++ [(reqId, input)] }

/-- Hover session status (`HoverStatus`). -/
inductive HoverStatus where
  | Inactive
  | Started
deriving DecidableEq, Repr

/-- Model of `HoverData` (only the fields the embedded functions touch). -/
structure HoverData where
  status : HoverStatus
  offset : Nat
  buffer_id : Nat
  request_id : Nat
deriving DecidableEq, Repr

/-- Modelled from the spec: `HoverData::cancel` moves a non-inactive hover
session to `Inactive`. -/
def HoverData.cancel (h : HoverData) : HoverData :=
  if h.status = HoverStatus.Inactive then h
  else { h with status := HoverStatus.Inactive }

/-- Model of `LapceEditorData`: one editor view — its id, displayed
content, cursor, live snippet placeholder set, jump-history locations and
index, and the last executed movement (as an opaque movement id). -/
structure LapceEditorData where
  view_id : Nat
  content : Nat
  cursor : Cursor
  snippet : Option (List (Nat × (Nat × Nat)))
  locations : List Nat
  current_location : Nat
  last_movement_new : Nat
deriving DecidableEq, Repr

/-- Modelled from the spec: `LapceEditorData::save_jump_location` pushes
the current position onto the jump history ("backward navigation pushes
the current position once when moving off the head") and leaves the index
at the new head. -/
def LapceEditorData.save_jump_location (e : LapceEditorData) (cursorLoc : Nat) :
    LapceEditorData :=
  let locs := e.locations ++ [cursorLoc]
  { e with locations := locs, current_location := locs.length }

/-- Modelled from the spec: `LapceEditorData::add_snippet_placeholders`
registers a fresh snippet's tab stops as the live Snippet Placeholder Set;
with a single stop there is nothing to navigate, so the set is only made
live when there is more than one stop. -/
def LapceEditorData.add_snippet_placeholders (e : LapceEditorData)
    (tabs : List (Nat × (Nat × Nat))) : LapceEditorData :=
  match e.snippet with
  | none => if 1 < tabs.length then { e with snippet := some tabs } else e
  | some _ => { e with snippet := some tabs }

/-- Model of `LapceEditorBufferData`: the acting editor view, its document,
the completion and hover sessions, and `main_split.editors` — the map from
view id to every open editor view. -/
structure LapceEditorBufferData where
  editor : LapceEditorData
  doc : Document
  completion : CompletionData
  hover : HoverData
  editors : List (Nat × LapceEditorData)

/-- The mode of the acting editor (`get_mode`). -/
def LapceEditorBufferData.get_mode (s : LapceEditorBufferData) : Mode :=
  s.editor.cursor.mode

/-- The loop body of `inactive_apply_delta` (editor.rs:327): walk
`main_split.editors`, and for every entry whose view id differs from the
acting view's and whose content equals the acting document's content,
remap its cursor through the delta. -/
def inactiveApplyDeltaLoop (actingView : Nat) (docContent : Nat) (delta : RopeDelta) :
    List (Nat × LapceEditorData) → List (Nat × LapceEditorData)
  | [] => []
  | p :: rest =>
    (if p.1 ≠ actingView ∧ docContent = p.2.content then
      (p.1, { p.2 with cursor := p.2.cursor.apply_delta delta })
    else p) :: inactiveApplyDeltaLoop actingView docContent delta rest

/-- `inactive_apply_delta` (editor.rs:327-335). -/
def inactive_apply_delta (s : LapceEditorBufferData) (delta : RopeDelta) :
    LapceEditorBufferData :=
  { s with editors := inactiveApplyDeltaLoop s.editor.view_id s.doc.content delta s.editors }

/-- `update_snippet_offset` (editor.rs:798-816): remap every live snippet
placeholder through the delta, the start with left bias (`after = false`)
and the end with right bias (`after = true`). -/
def update_snippet_offset (s : LapceEditorBufferData) (delta : RopeDelta) :
    LapceEditorBufferData :=
  match s.editor.snippet with
  | none => s
  | some snippet =>
    { s with editor := { s.editor with snippet := some (snippet.map
        (fun t => (t.1, (transform delta t.2.1 false, transform delta t.2.2 true)))) } }

/-- `apply_deltas` (editor.rs:1214-1219): for each delta, first remap the
other views' cursors, then the snippet placeholder set. -/
def apply_deltas (s : LapceEditorBufferData) (deltas : List RopeDelta) :
    LapceEditorBufferData :=
  deltas.foldl (fun st d => update_snippet_offset (inactive_apply_delta st d) d) s

/-- Modelled from the spec: an element of a parsed snippet — plain text, a
numbered placeholder `$\x7bn:...\x7d` with default content, or a bare tab
stop `$n` ("parse tab-stop markers"; `completion.rs` is not part of this
repository slice). -/
inductive SnippetElement where
  | text : String → SnippetElement
  | placeholder : Nat → List SnippetElement → SnippetElement
  | tabstop : Nat → SnippetElement

mutual

/-- Length of the plain text an element expands to. -/
def SnippetElement.len : SnippetElement → Nat
  | SnippetElement.text s => s.length
  | SnippetElement.placeholder _ els => snippetElementsLen els
  | SnippetElement.tabstop _ => 0

/-- Length of the plain text a list of elements expands to. -/
def snippetElementsLen : List SnippetElement → Nat
  | [] => 0
  | e :: rest => e.len + snippetElementsLen rest

end

mutual

/-- Plain text an element expands to. -/
def SnippetElement.toText : SnippetElement → String
  | SnippetElement.text s => s
  | SnippetElement.placeholder _ els => snippetElementsText els
  | SnippetElement.tabstop _ => ""

/-- Plain text a list of elements expands to. -/
def snippetElementsText : List SnippetElement → String
  | [] => ""
  | e :: rest => e.toText ++ snippetElementsText rest

end

mutual

/-- Tab stops contributed by one element placed at text offset `pos`. -/
def SnippetElement.tabsAt : SnippetElement → Nat → List (Nat × (Nat × Nat))
  | SnippetElement.text _, _ => []
  | SnippetElement.placeholder t els, pos =>
    (t, (pos, pos + snippetElementsLen els)) :: snippetElementsTabs els pos
  | SnippetElement.tabstop t, pos => [(t, (pos, pos))]

/-- Tab stops of a list of elements starting at text offset `pos`, in
order. -/
def snippetElementsTabs : List SnippetElement → Nat → List (Nat × (Nat × Nat))
  | [], _ => []
  | e :: rest, pos => e.tabsAt pos ++ snippetElementsTabs rest (pos + e.len)

end

/-- Interpret a run of digit characters as a decimal number. -/
def digitsToNat (ds : List Char) : Nat :=
  ds.foldl (fun a c => a * 10 + (c.toNat - 48)) 0

/-- Modelled from the spec: fuelled snippet text parser recognising
`$\x7bn:default\x7d` placeholders, `$n` tab stops and plain text. -/
def snippetParse : Nat → List Char → List SnippetElement
  | 0, _ => []
  | _, [] => []
  | fuel + 1, '$' :: '\x7b' :: rest =>
    let ds := rest.takeWhile Char.isDigit
    let r1 := rest.dropWhile Char.isDigit
    match r1 with
    | ':' :: r2 =>
      let body := r2.takeWhile (fun c => c ≠ '\x7d')
      let r3 := (r2.dropWhile (fun c => c ≠ '\x7d')).drop 1
      SnippetElement.placeholder (digitsToNat ds) [SnippetElement.text (String.mk body)] ::
        snippetParse fuel r3
    | _ => [SnippetElement.text (String.mk ('$' :: '\x7b' :: rest))]
  | fuel + 1, '$' :: rest =>
    let ds := rest.takeWhile Char.isDigit
    let r1 := rest.dropWhile Char.isDigit
    if ds.isEmpty then
      SnippetElement.text (String.mk ['$']) :: snippetParse fuel rest
    else
      SnippetElement.tabstop (digitsToNat ds) :: snippetParse fuel r1
  | fuel + 1, c :: rest =>
    SnippetElement.text (String.mk ((c :: rest).takeWhile (fun x => x ≠ '$'))) ::
      snippetParse fuel ((c :: rest).dropWhile (fun x => x ≠ '$'))

/-- Modelled from the spec: a parsed snippet. -/
structure Snippet where
  elements : List SnippetElement

/-- Modelled from the spec: `Snippet::from_str` parses the snippet-format
replacement text. -/
def Snippet.from_str (s : String) : Except String Snippet :=
  Except.ok (Snippet.mk (snippetParse (s.data.length + 1) s.data))

/-- Modelled from the spec: `Snippet::text` is the plain text the snippet
inserts, with tab-stop markers removed. -/
def Snippet.toText (s : Snippet) : String :=
  snippetElementsText s.elements

/-- Modelled from the spec: `Snippet::tabs` lists the snippet's tab stops
as (tab index, (start, end)) ranges relative to insert offset `pos`. -/
def Snippet.tabs (s : Snippet) (pos : Nat) : List (Nat × (Nat × Nat)) :=
  snippetElementsTabs s.elements pos

/-- An LSP `TextEdit`: a protocol position range and replacement text. -/
structure TextEdit where
  range : Pos × Pos
  new_text : String
deriving DecidableEq, Repr

/-- `lsp_types::CompletionTextEdit`. -/
inductive CompletionTextEdit where
  | edit : TextEdit → CompletionTextEdit
  | insertAndReplace : TextEdit → CompletionTextEdit
deriving DecidableEq, Repr

/-- `lsp_types::InsertTextFormat`, restricted to the matched variants. -/
inductive InsertTextFormat where
  | plain
  | snippet
  | other
deriving DecidableEq, Repr

/-- The fields of `lsp_types::CompletionItem` read by
`apply_completion_item`. -/
structure CompletionItem where
  additional_text_edits : Option (List TextEdit)
  text_edit : Option CompletionTextEdit
  insert_text_format : Option InsertTextFormat
  insert_text : Option String
  label : String
deriving DecidableEq, Repr

/-- Conversion of one additional text edit's protocol range to a
(selection, replacement) pair; fails when either endpoint fails to
convert (the closure body inside `apply_completion_item`,
editor.rs:428-434). -/
def convertTextEdit (b : Buffer) (edit : TextEdit) : Option ((Nat × Nat) × String) := do
  let a ← b.offset_of_position edit.range.1
  let c ← b.offset_of_position edit.range.2
  pure ((a, c), edit.new_text)

/-- Rust's `collect::<Option<Vec<_>>>`: all-or-nothing collection of a
mapped iterator. -/
def collectOption {α β : Type} (f : α → Option β) : List α → Option (List β)
  | [] => some []
  | a :: t =>
    match f a with
    | none => none
    | some b => (collectOption f t).map (fun bs => b :: bs)

/-- The shared tail of `apply_completion_item` (editor.rs:562-583): when no
snippet/plain text-edit path returned, replace the word span around the
cursor with the item's insert text (or its label). -/
def applyCompletionFallback (s : LapceEditorBufferData) (item : CompletionItem)
    (additionalEdits : List ((Nat × Nat) × String)) :
    LapceEditorBufferData × Except String Unit :=
  let offset := s.editor.cursor.offset
  let start_offset := s.doc.buffer.prev_code_boundary offset
  let end_offset := s.doc.buffer.next_code_boundary offset
  let selection := (start_offset, end_offset)
  let r := s.doc.do_raw_edit ((selection, item.insert_text.getD item.label) :: additionalEdits)
  let sel2 := (transform r.1 selection.1 true, transform r.1 selection.2 true)
  let s2 := { s with
    doc := r.2
    editor := { s.editor with cursor := s.editor.cursor.update_selection sel2 } }
  (apply_deltas s2 [r.1], Except.ok ())

/-- `apply_completion_item` (editor.rs:423-584).  Returns the state after
the call together with the `Result`; every early `Err` return leaves the
state exactly as it was (no `do_raw_edit` has happened yet). -/
def apply_completion_item (s : LapceEditorBufferData) (item : CompletionItem) :
    LapceEditorBufferData × Except String Unit :=
  let additional_edit : Option (Option (List ((Nat × Nat) × String))) :=
    item.additional_text_edits.map (fun edits => collectOption (convertTextEdit s.doc.buffer) edits)
  if (additional_edit.map Option.isNone).getD false then
    (s, Except.error "Bad additional edit position")
  else
    let additionalEdits := additional_edit.join.getD []
    let text_format := item.insert_text_format.getD InsertTextFormat.plain
    match item.text_edit with
    | some (CompletionTextEdit.edit edit) =>
      let offset := s.editor.cursor.offset
      let start_offset := s.doc.buffer.prev_code_boundary offset
      let end_offset := s.doc.buffer.next_code_boundary offset
      match s.doc.buffer.offset_of_position edit.range.1 with
      | none => (s, Except.error "bad edit start position")
      | some edit_start =>
        match s.doc.buffer.offset_of_position edit.range.2 with
        | none => (s, Except.error "bad edit end position")
        | some edit_end =>
          let selection := (min start_offset edit_start, max end_offset edit_end)
          match text_format with
          | InsertTextFormat.plain =>
            let r := s.doc.do_raw_edit ((selection, edit.new_text) :: additionalEdits)
            let sel2 := (transform r.1 selection.1 true, transform r.1 selection.2 true)
            let s2 := { s with
              doc := r.2
              editor := { s.editor with
                cursor := s.editor.cursor.update_selection sel2 } }
            (apply_deltas s2 [r.1], Except.ok ())
          | InsertTextFormat.snippet =>
            match Snippet.from_str edit.new_text with
            | Except.error e => (s, Except.error e)
            | Except.ok snippet =>
              let r := s.doc.do_raw_edit ((selection, snippet.toText) :: additionalEdits)
              let s2 := { s with doc := r.2 }
              let offset2 := transform r.1 (min start_offset edit_start) false
              match snippet.tabs offset2 with
              | [] =>
                let sel2 := (transform r.1 selection.1 true, transform r.1 selection.2 true)
                (apply_deltas { s2 with editor := { s2.editor with
                    cursor := s2.editor.cursor.update_selection sel2 } } [r.1],
                 Except.ok ())
              | t0 :: ts =>
                let s3 := { s2 with editor := { s2.editor with
                    cursor := s2.editor.cursor.set_insert t0.2 } }
                let s4 := apply_deltas s3 [r.1]
                ({ s4 with editor := s4.editor.add_snippet_placeholders (t0 :: ts) },
                 Except.ok ())
          | InsertTextFormat.other => applyCompletionFallback s item additionalEdits
    | some (CompletionTextEdit.insertAndReplace _) =>
      applyCompletionFallback s item additionalEdits
    | none => applyCompletionFallback s item additionalEdits

/-- The `start_offset` local of `update_completion` (editor.rs:614): the
word-start boundary before the cursor, used as the completion anchor. -/
def completionStartOffset (s : LapceEditorBufferData) : Nat :=
  s.doc.buffer.prev_code_boundary s.editor.cursor.offset

/-- The `input` local of `update_completion` (editor.rs:616-620): the word
around the cursor. -/
def completionInput (s : LapceEditorBufferData) : String :=
  s.doc.buffer.slice (completionStartOffset s)
    (s.doc.buffer.next_code_boundary s.editor.cursor.offset)

/-- The `char` local of `update_completion` (editor.rs:621-628): the
character right before the word start, empty at offset 0. -/
def completionChar (s : LapceEditorBufferData) : String :=
  if completionStartOffset s = 0 then ""
  else s.doc.buffer.slice (completionStartOffset s - 1) (completionStartOffset s)

/-- `update_completion` (editor.rs:598-713): cancel outside insert mode,
return early on unloaded/non-file documents and on the empty-input guard;
reuse the session when the anchor offset and buffer id are unchanged
(issuing the `""` and current-input requests only when uncached and only
when the offset converts to a protocol position), otherwise reset it. -/
def update_completion (s : LapceEditorBufferData) (display_if_empty_input : Bool) :
    LapceEditorBufferData :=
  if s.get_mode ≠ Mode.Insert then { s with completion := s.completion.cancel }
  else if ¬ s.doc.loaded then s
  else if ¬ s.doc.isFileContent then s
  else
    let offset := s.editor.cursor.offset
    let start_offset := completionStartOffset s
    let input := completionInput s
    let ch := completionChar s
    if ¬ display_if_empty_input ∧ input = "" ∧ ch ≠ "." ∧ ch ≠ ":" then
      { s with completion := s.completion.cancel }
    else if s.completion.status ≠ CompletionStatus.Inactive
        ∧ s.completion.offset = start_offset ∧ s.completion.buffer_id = s.doc.id then
      let c := s.completion.update_input input
      let c :=
        if ¬ c.input_items.contains "" then
          match s.doc.buffer.offset_to_position start_offset with
          | some _ => c.request c.request_id ""
          | none => c
        else c
      let c :=
        if ¬ c.input_items.contains input then
          match s.doc.buffer.offset_to_position offset with
          | some _ => c.request c.request_id input
          | none => c
        else c
      { s with completion := c }
    else
      let c := { s.completion with
        buffer_id := s.doc.id
        offset := start_offset
        input := input
        status := CompletionStatus.Started
        input_items := []
        request_id := s.completion.request_id + 1 }
      let c :=
        match s.doc.buffer.offset_to_position start_offset with
        | some _ => c.request c.request_id ""
        | none => c
      let c :=
        if input ≠ "" then
          match s.doc.buffer.offset_to_position offset with
          | some _ => c.request c.request_id input
          | none => c
        else c
      { s with completion := c }

/-- `run_move_command` (editor.rs:1284-1325).  The external
`Document::move_cursor` is modelled by the universally quantified
`newOffset` the movement resolves to; `movementId` stands for the movement
value compared against `last_movement_new`, and `isJump` for
`movement.is_jump()`. -/
def run_move_command (s : LapceEditorBufferData) (newOffset : Nat)
    (movementId : Nat) (isJump : Bool) : LapceEditorBufferData :=
  let ed :=
    if isJump ∧ movementId ≠ s.editor.last_movement_new then
      s.editor.save_jump_location s.editor.cursor.offset
    else s.editor
  let ed := { ed with last_movement_new := movementId }
  let ed := { ed with cursor := { ed.cursor with offset := newOffset } }
  let ed :=
    match ed.snippet with
    | some snippet =>
      if snippet.any (fun t => decide (t.2.1 ≤ newOffset ∧ newOffset ≤ t.2.2)) then ed
      else { ed with snippet := none }
    | none => ed
  { s with editor := ed, completion := s.completion.cancel, hover := s.hover.cancel }

/-- `jump_location_forward` (editor.rs:930-946).  The submitted
`GoToLocationNew` command is modelled as moving the cursor to the
location. -/
def jump_location_forward (s : LapceEditorBufferData) : LapceEditorBufferData :=
  if s.editor.locations.isEmpty then s
  else if s.editor.locations.length - 1 ≤ s.editor.current_location then s
  else
    let ed := { s.editor with current_location := s.editor.current_location + 1 }
    match ed.locations.get? ed.current_location with
    | some l => { s with editor := { ed with cursor := { ed.cursor with offset := l } } }
    | none => s

/-- `jump_location_backward` (editor.rs:948-966): no-op below index 1; from
at-or-past the head, first push the current position via
`save_jump_location` and step back once, then step back once more and go
to that location. -/
def jump_location_backward (s : LapceEditorBufferData) : LapceEditorBufferData :=
  if s.editor.current_location < 1 then s
  else
    let ed :=
      if s.editor.locations.length ≤ s.editor.current_location then
        let e2 := s.editor.save_jump_location s.editor.cursor.offset
        { e2 with current_location := e2.current_location - 1 }
      else s.editor
    let ed := { ed with current_location := ed.current_location - 1 }
    match ed.locations.get? ed.current_location with
    | some l => { s with editor := { ed with cursor := { ed.cursor with offset := l } } }
    | none => s

/-- Index of the placeholder whose range contains `offset` (first match),
defaulting to 0 — the `current` computation of the snippet navigation
commands (editor.rs:1713-1720). -/
def findCurrentPlaceholder (sn : List (Nat × (Nat × Nat))) (offset : Nat) : Nat :=
  match sn.findIdx? (fun t => decide (t.2.1 ≤ offset ∧ offset ≤ t.2.2)) with
  | some i => i
  | none => 0

/-- The `JumpToNextSnippetPlaceholder` arm of `run_focus_command`
(editor.rs:1711-1738): with a live placeholder set, select the placeholder
after the one containing the cursor, clear the set when that target is at
or past the last stop (`current + 1 >= snippet.len() - 1`), and cancel
completion. -/
def jump_to_next_snippet_placeholder (s : LapceEditorBufferData) :
    LapceEditorBufferData :=
  match s.editor.snippet with
  | none => s
  | some snippet =>
    let current := findCurrentPlaceholder snippet s.editor.cursor.offset
    let last_placeholder := snippet.length - 1 ≤ current + 1
    let ed :=
      match snippet.get? (current + 1) with
      | some t => { s.editor with cursor := s.editor.cursor.set_insert t.2 }
      | none => s.editor
    let ed := if last_placeholder then { ed with snippet := none } else ed
    { s with editor := ed, completion := s.completion.cancel }

/-- `run_command` (editor.rs:2206-2237): dispatch the command (the
dispatch over `CommandKind` is abstracted by `exec`), then clear the
cursor's `history_selections` when the document's content or revision
changed. -/
def run_command (exec : LapceEditorBufferData → LapceEditorBufferData)
    (s : LapceEditorBufferData) : LapceEditorBufferData :=
  let old_doc := s.doc
  let s2 := exec s
  if s2.doc.content ≠ old_doc.content ∨ s2.doc.rev ≠ old_doc.rev then
    { s2 with editor := { s2.editor with cursor := { s2.editor.cursor with
        history_selections := [] } } }
  else s2

/-- The ordering used on file paths (`PathBuf: Ord`), modelled as the
lexicographic order on the path's characters — the same relation as
`String`'s own `<` (see `pathLt_iff_lt`). -/
def pathLt (a b : String) : Prop :=
  a.data < b.data

instance (a b : String) : Decidable (pathLt a b) :=
  inferInstanceAs (Decidable (a.data < b.data))

/-- Result of a Rust function that can panic: either a value or a panic
(here always from an out-of-bounds index). -/
inductive PanicOr (α : Type) where
  | panic : PanicOr α
  | ok : α → PanicOr α
deriving DecidableEq, Repr

/-- Whether a `PanicOr` result is a normal return. -/
def PanicOr.isOk {α : Type} : PanicOr α → Bool
  | PanicOr.panic => false
  | PanicOr.ok _ => true

/-- The loop of `next_in_file_diff_offset` (editor.rs:2260-2271): for the
entry matching the current path, return the first listed offset strictly
greater than the current one; at the first entry whose path is greater
than the current path, return its first offset — an out-of-bounds
`offsets[0]` is a panic.  `none` means the loop fell through. -/
def nextInFileDiffLoop (offset : Nat) (path : String) :
    List (String × List Nat) → Option (PanicOr (String × Nat))
  | [] => none
  | e :: rest =>
    match (if path = e.1 then e.2.find? (fun d => decide (offset < d)) else none) with
    | some d => some (PanicOr.ok (e.1, d))
    | none =>
      if pathLt path e.1 then
        match e.2.head? with
        | some d => some (PanicOr.ok (e.1, d))
        | none => some PanicOr.panic
      else nextInFileDiffLoop offset path rest

/-- `next_in_file_diff_offset` (editor.rs:2255-2273): the loop above, then
the wraparound to `file_diffs[0].1[0]` — each index access panics when out
of bounds. -/
def next_in_file_diff_offset (offset : Nat) (path : String)
    (file_diffs : List (String × List Nat)) : PanicOr (String × Nat) :=
  match nextInFileDiffLoop offset path file_diffs with
  | some r => r
  | none =>
    match file_diffs.head? with
    | some e =>
      match e.2.head? with
      | some d => PanicOr.ok (e.1, d)
      | none => PanicOr.panic
    | none => PanicOr.panic

/-- The first offset strictly greater than `offset` in the entry for
`path`, if any — the spec's "within the current file, the first listed
position strictly greater than current". -/
def currentFileHit (offset : Nat) (path : String)
    (file_diffs : List (String × List Nat)) : Option Nat :=
  (file_diffs.lookup path).bind (List.find? (fun d => decide (offset < d)))

/-- Specification-side restatement of the next-diff cascade, written from
the spec's words: first position strictly greater in the current file;
else the first position of the lexicographically next file by path; else
wrap to the very first file and position; `none` when the needed list is
empty. -/
def nextDiffSpec (offset : Nat) (path : String)
    (file_diffs : List (String × List Nat)) : Option (String × Nat) :=
  match currentFileHit offset path file_diffs with
  | some d => some (path, d)
  | none =>
    match file_diffs.find? (fun e => decide (pathLt path e.1)) with
    | some e => e.2.head?.map (fun d => (e.1, d))
    | none => file_diffs.head?.bind (fun e => e.2.head?.map (fun d => (e.1, d)))

/-- The positions-list normalization inside `next_diff`
(editor.rs:866-868): a file with no computed positions gets the single
position 0 pushed, so every per-file list handed to
`next_in_file_diff_offset` is non-empty. -/
def nextDiffPositions (positions : List Nat) : List Nat :=
  if positions.isEmpty then [0] else positions

/-!  Helper lemmas. -/

/-- The modelled path order is exactly `String`'s own lexicographic
order. -/
theorem pathLt_iff_lt (a b : String) : pathLt a b ↔ a < b :=
  String.lt_iff_toList_lt.symm

/-- Cancelling a completion session always leaves it `Inactive`. -/
theorem CompletionData.cancel_status_inactive (c : CompletionData) :
    c.cancel.status = CompletionStatus.Inactive := by
  unfold CompletionData.cancel
  split
  next h => exact h
  next => rfl

/-- Cancelling a hover session always leaves it `Inactive`. -/
theorem HoverData.cancel_hover_status_inactive (h : HoverData) :
    h.cancel.status = HoverStatus.Inactive := by
  unfold HoverData.cancel
  split
  next hh => exact hh
  next => rfl

/-- Cancelling a completion session never touches its request id. -/
theorem CompletionData.cancel_request_id (c : CompletionData) :
    c.cancel.request_id = c.request_id := by
  unfold CompletionData.cancel
  split <;> rfl

/-- The `inactive_apply_delta` loop is a pointwise map over the editors
list. -/
theorem inactiveApplyDeltaLoop_eq_map (actingView docContent : Nat) (delta : RopeDelta) :
    ∀ l : List (Nat × LapceEditorData),
      inactiveApplyDeltaLoop actingView docContent delta l =
        l.map (fun p =>
          if p.1 ≠ actingView ∧ docContent = p.2.content then
            (p.1, { p.2 with cursor := p.2.cursor.apply_delta delta })
          else p)
  | [] => rfl
  | p :: rest => by
    simp only [inactiveApplyDeltaLoop, List.map_cons,
      inactiveApplyDeltaLoop_eq_map actingView docContent delta rest]

/-- `update_snippet_offset` never touches the other editors. -/
theorem update_snippet_offset_editors (s : LapceEditorBufferData) (delta : RopeDelta) :
    (update_snippet_offset s delta).editors = s.editors := by
  unfold update_snippet_offset
  cases s.editor.snippet <;> rfl

/-- `save_jump_location` never touches the snippet placeholder set. -/
theorem save_jump_location_snippet (e : LapceEditorData) (loc : Nat) :
    (e.save_jump_location loc).snippet = e.snippet := rfl

/-!  C1. -/

/-- C1: for every delta, `inactive_apply_delta` remaps exactly the cursors
of the other editors showing the same document: each entry of
`main_split.editors` whose view id differs from the acting view's and
whose content equals the acting document's content has its cursor remapped
through `cursor.apply_delta`, and every other entry — including the acting
view's own editor — is left unchanged; the same holds for the editors
after `apply_deltas` with that delta. -/
theorem claim_C1_inactive_apply_delta_frame (s : LapceEditorBufferData) (delta : RopeDelta) :
    (inactive_apply_delta s delta).editors =
      s.editors.map (fun p =>
        if p.1 ≠ s.editor.view_id ∧ s.doc.content = p.2.content then
          (p.1, { p.2 with cursor := p.2.cursor.apply_delta delta })
        else p)
    ∧ (inactive_apply_delta s delta).editor = s.editor
    ∧ (apply_deltas s [delta]).editors =
      s.editors.map (fun p =>
        if p.1 ≠ s.editor.view_id ∧ s.doc.content = p.2.content then
          (p.1, { p.2 with cursor := p.2.cursor.apply_delta delta })
        else p) := by
  refine ⟨?_, rfl, ?_⟩
  · exact inactiveApplyDeltaLoop_eq_map s.editor.view_id s.doc.content delta s.editors
  · show (update_snippet_offset (inactive_apply_delta s delta) delta).editors = _
    rw [update_snippet_offset_editors]
    exact inactiveApplyDeltaLoop_eq_map s.editor.view_id s.doc.content delta s.editors

/-!  C7. -/

/-- C7: after every `run_move_command` — for every resulting cursor offset,
movement and jump classification — the completion session and the hover
session end the call `Inactive`, and if the resulting offset lies outside
every live snippet placeholder range the placeholder set is discarded. -/
theorem claim_C7_run_move_command_cancels (s : LapceEditorBufferData)
    (newOffset movementId : Nat) (isJump : Bool) :
    (run_move_command s newOffset movementId isJump).completion.status
      = CompletionStatus.Inactive
    ∧ (run_move_command s newOffset movementId isJump).hover.status
      = HoverStatus.Inactive
    ∧ (∀ sn, s.editor.snippet = some sn →
        (∀ t ∈ sn, ¬ (t.2.1 ≤ newOffset ∧ newOffset ≤ t.2.2)) →
        (run_move_command s newOffset movementId isJump).editor.snippet = none) := by
  refine ⟨?_, ?_, ?_⟩
  · simp [run_move_command, CompletionData.cancel_status_inactive]
  · simp [run_move_command, HoverData.cancel_hover_status_inactive]
  · intro sn h hout
    have hany : sn.any (fun t => decide (t.2.1 ≤ newOffset ∧ newOffset ≤ t.2.2)) = false := by
      simp only [List.any_eq_false, decide_eq_true_eq]
      exact hout
    by_cases hj : isJump = true ∧ movementId ≠ s.editor.last_movement_new
    · simp only [run_move_command, if_pos hj, LapceEditorData.save_jump_location, h]
      rw [hany]
      simp
    · simp only [run_move_command, if_neg hj, h]
      rw [hany]
      simp

/-!  C8. -/

/-- C8: for every delta applied while a snippet placeholder set is live,
`update_snippet_offset` remaps each placeholder by transforming its start
with left bias (`after = false`) and its end with right bias
(`after = true`), preserving the list's tab order and length; and through
a single-op delta inserting `k` characters exactly at a placeholder
boundary, the placeholder's range grows to include the inserted text. -/
theorem claim_C8_update_snippet_offset_bias (s : LapceEditorBufferData)
    (delta : RopeDelta) (sn : List (Nat × (Nat × Nat)))
    (h : s.editor.snippet = some sn) :
    (update_snippet_offset s delta).editor.snippet
      = some (sn.map (fun t => (t.1, (transform delta t.2.1 false, transform delta t.2.2 true))))
    ∧ ((update_snippet_offset s delta).editor.snippet.map List.length) = some sn.length
    ∧ ((update_snippet_offset s delta).editor.snippet.map (List.map Prod.fst))
      = some (sn.map Prod.fst)
    ∧ (∀ st en k : Nat, st ≤ en →
        (transform [SimpleEdit.mk st st k] st false = st
          ∧ transform [SimpleEdit.mk st st k] en true = en + k)
        ∧ (transform [SimpleEdit.mk en en k] st false = st
          ∧ transform [SimpleEdit.mk en en k] en true = en + k)) := by
  have hmain : (update_snippet_offset s delta).editor.snippet
      = some (sn.map (fun t => (t.1, (transform delta t.2.1 false, transform delta t.2.2 true)))) := by
    simp [update_snippet_offset, h]
  refine ⟨hmain, ?_, ?_, ?_⟩
  · simp [hmain]
  · simp [hmain]
  · intro st en k hle
    simp only [transform, List.foldl, SimpleEdit.transform, cond_true, cond_false]
    refine ⟨⟨?_, ?_⟩, ⟨?_, ?_⟩⟩ <;> split_ifs <;> omega

/-!  C10. -/

/-- C10: after `run_command` dispatches any command, if the document's
content or revision differs from its value before the command, the
cursor's `history_selections` list is cleared; when neither changed, the
post-step leaves the dispatched state — in particular its
`history_selections` — untouched. -/
theorem claim_C10_run_command_history (exec : LapceEditorBufferData → LapceEditorBufferData)
    (s : LapceEditorBufferData) :
    (((exec s).doc.content ≠ s.doc.content ∨ (exec s).doc.rev ≠ s.doc.rev) →
      (run_command exec s).editor.cursor.history_selections = [])
    ∧ ((exec s).doc.content = s.doc.content → (exec s).doc.rev = s.doc.rev →
      run_command exec s = exec s) := by
  constructor
  · intro h
    simp only [run_command]
    split
    next => rfl
    next hc => exact absurd h hc
  · intro h1 h2
    simp [run_command, h1, h2]

/-!  C5. -/

/-- Converting one additional text edit fails when either endpoint fails
to convert. -/
theorem convertTextEdit_eq_none (b : Buffer) (edit : TextEdit)
    (h : b.offset_of_position edit.range.1 = none
      ∨ b.offset_of_position edit.range.2 = none) :
    convertTextEdit b edit = none := by
  unfold convertTextEdit
  rcases h with h | h
  · simp [h]
  · cases h1 : b.offset_of_position edit.range.1 <;> simp [h, h1]

/-- An all-or-nothing collection fails as soon as one element fails. -/
theorem collectOption_none_of_mem {α β : Type} (f : α → Option β) :
    ∀ (l : List α) (x : α), x ∈ l → f x = none → collectOption f l = none := by
  intro l
  induction l with
  | nil => intro x hx; cases hx
  | cons a t ih =>
    intro x hx hf
    rcases List.mem_cons.mp hx with rfl | hx
    · simp [collectOption, hf]
    · cases ha : f a <;> simp [collectOption, ha, ih x hx hf]

/-- C5: if any position needed to build a completion edit fails to convert
to an offset — any additional-text-edit range endpoint, or the text-edit's
start or end `Position` — then `apply_completion_item` returns `Err` and
commits nothing: the returned state (document, edit log and cursor
included) is exactly the input state. -/
theorem claim_C5_apply_completion_item_aborts (s : LapceEditorBufferData)
    (item : CompletionItem)
    (h : (∃ edits, item.additional_text_edits = some edits ∧
            ∃ e ∈ edits, s.doc.buffer.offset_of_position e.range.1 = none
              ∨ s.doc.buffer.offset_of_position e.range.2 = none)
       ∨ (∃ te, item.text_edit = some (CompletionTextEdit.edit te) ∧
            (s.doc.buffer.offset_of_position te.range.1 = none
             ∨ s.doc.buffer.offset_of_position te.range.2 = none))) :
    (apply_completion_item s item).1 = s
    ∧ ∃ msg, (apply_completion_item s item).2 = Except.error msg := by
  rcases h with ⟨edits, he, x, hx, hfail⟩ | ⟨te, hte, hfail⟩
  · have hm : collectOption (convertTextEdit s.doc.buffer) edits = none :=
      collectOption_none_of_mem _ edits x hx (convertTextEdit_eq_none _ _ hfail)
    have hred : apply_completion_item s item = (s, Except.error "Bad additional edit position") := by
      simp [apply_completion_item, he, hm]
    rw [hred]
    exact ⟨rfl, _, rfl⟩
  · cases hguard : ((item.additional_text_edits.map
        (fun edits => collectOption (convertTextEdit s.doc.buffer) edits)).map Option.isNone).getD false
    all_goals simp only [Option.map_map] at hguard
    · rcases hfail with h1 | h1
      · have hred : apply_completion_item s item = (s, Except.error "bad edit start position") := by
          simp [apply_completion_item, hte, hguard, h1]
        rw [hred]
        exact ⟨rfl, _, rfl⟩
      · cases h2 : s.doc.buffer.offset_of_position te.range.1
        · have hred : apply_completion_item s item
              = (s, Except.error "bad edit start position") := by
            simp [apply_completion_item, hte, hguard, h2]
          rw [hred]
          exact ⟨rfl, _, rfl⟩
        · have hred : apply_completion_item s item
              = (s, Except.error "bad edit end position") := by
            simp [apply_completion_item, hte, hguard, h1, h2]
          rw [hred]
          exact ⟨rfl, _, rfl⟩
    · have hred : apply_completion_item s item
          = (s, Except.error "Bad additional edit position") := by
        simp [apply_completion_item, hguard]
      rw [hred]
      exact ⟨rfl, _, rfl⟩

/-- Buffer for the C5 witness: every protocol position fails to convert. -/
def c5Buffer : Buffer :=
  { offset_of_position := fun _ => none
    offset_to_position := fun _ => none
    prev_code_boundary := fun _ => 0
    next_code_boundary := fun _ => 0
    slice := fun _ _ => "" }

/-- Editor state for the C5 witness. -/
def c5State : LapceEditorBufferData :=
  { editor := { view_id := 1, content := 0
                cursor := { offset := 0, insertSel := none, mode := Mode.Insert
                            history_selections := [] }
                snippet := none, locations := [], current_location := 0
                last_movement_new := 0 }
    doc := { buffer := c5Buffer, content := 0, isFileContent := true, loaded := true
             id := 5, rev := 0, editLog := [] }
    completion := { status := CompletionStatus.Inactive, offset := 0, buffer_id := 0
                    input := "", input_items := [], request_id := 0, requests_sent := [] }
    hover := { status := HoverStatus.Inactive, offset := 0, buffer_id := 0, request_id := 0 }
    editors := [] }

/-- Additional text edit for the C5 witness. -/
def c5Edit : TextEdit :=
  { range := (Pos.mk 0 0, Pos.mk 0 1), new_text := "x" }

/-- Completion item for the C5 witness: one additional edit whose
positions cannot be converted. -/
def c5Item : CompletionItem :=
  { additional_text_edits := some [c5Edit], text_edit := none
    insert_text_format := none, insert_text := none, label := "l" }

/-- Witness for C5: on a concrete item carrying an unconvertible
additional edit, applying it errors out and leaves the state unchanged. -/
theorem claim_C5_witness :
    (apply_completion_item c5State c5Item).1 = c5State
    ∧ ∃ msg, (apply_completion_item c5State c5Item).2 = Except.error msg :=
  claim_C5_apply_completion_item_aborts c5State c5Item
    (Or.inl ⟨[c5Edit], rfl, c5Edit, List.mem_singleton.mpr rfl, Or.inl rfl⟩)

/-!  C2. -/

/-- Buffer for the snippet scenario: the document is empty, so every
boundary is 0 and the LSP edit range converts to offset 0. -/
def snippetScenarioBuffer : Buffer :=
  { offset_of_position := fun _ => some 0
    offset_to_position := fun _ => some (Pos.mk 0 0)
    prev_code_boundary := fun _ => 0
    next_code_boundary := fun _ => 0
    slice := fun _ _ => "" }

/-- Editor state before inserting the snippet `foo($\x7b1:a\x7d, $\x7b2:b\x7d)`. -/
def snippetScenarioState : LapceEditorBufferData :=
  { editor := { view_id := 1, content := 0
                cursor := { offset := 0, insertSel := none, mode := Mode.Insert
                            history_selections := [] }
                snippet := none, locations := [], current_location := 0
                last_movement_new := 0 }
    doc := { buffer := snippetScenarioBuffer, content := 0, isFileContent := true
             loaded := true, id := 9, rev := 0, editLog := [] }
    completion := { status := CompletionStatus.Inactive, offset := 0, buffer_id := 0
                    input := "", input_items := [], request_id := 0, requests_sent := [] }
    hover := { status := HoverStatus.Inactive, offset := 0, buffer_id := 0, request_id := 0 }
    editors := [] }

/-- Completion item carrying the snippet `foo($\x7b1:a\x7d, $\x7b2:b\x7d)`. -/
def snippetScenarioItem : CompletionItem :=
  { additional_text_edits := none
    text_edit := some (CompletionTextEdit.edit
      { range := (Pos.mk 0 0, Pos.mk 0 0), new_text := "foo($\x7b1:a\x7d, $\x7b2:b\x7d)" })
    insert_text_format := some InsertTextFormat.snippet
    insert_text := none
    label := "foo" }

/-- State after applying the snippet completion. -/
def snippetScenarioApplied : LapceEditorBufferData :=
  (apply_completion_item snippetScenarioState snippetScenarioItem).1

/-- C2 (amended): the next-tab-stop command selects the placeholder
adjacent to the one containing the cursor offset (defaulting to the first
when none contains it), and the placeholder set is cleared exactly when
the navigation target reaches or passes the last stop, i.e. when
`current + 1 ≥ snippet.len() - 1` — already on the jump that lands on the
last stop.  For the snippet `foo($\x7b1:a\x7d, $\x7b2:b\x7d)`: after
insertion the selection spans a's replacement range (4,5) and the live
set is both stops; one next-tab-stop moves the selection to b's range
(7,8) and clears the placeholder set; a further next-tab-stop is a
no-op. -/
theorem claim_C2_snippet_navigation :
    (∀ (s : LapceEditorBufferData) (sn : List (Nat × (Nat × Nat))),
      s.editor.snippet = some sn →
      (((jump_to_next_snippet_placeholder s).editor.snippet = none)
        ↔ sn.length - 1 ≤ findCurrentPlaceholder sn s.editor.cursor.offset + 1)
      ∧ (∀ t, sn.get? (findCurrentPlaceholder sn s.editor.cursor.offset + 1) = some t →
          (jump_to_next_snippet_placeholder s).editor.cursor.insertSel = some t.2))
    ∧ (apply_completion_item snippetScenarioState snippetScenarioItem).2 = Except.ok ()
    ∧ snippetScenarioApplied.editor.cursor.insertSel = some (4, 5)
    ∧ snippetScenarioApplied.editor.snippet = some [(1, (4, 5)), (2, (7, 8))]
    ∧ (jump_to_next_snippet_placeholder snippetScenarioApplied).editor.cursor.insertSel
        = some (7, 8)
    ∧ (jump_to_next_snippet_placeholder snippetScenarioApplied).editor.snippet = none
    ∧ jump_to_next_snippet_placeholder (jump_to_next_snippet_placeholder snippetScenarioApplied)
        = jump_to_next_snippet_placeholder snippetScenarioApplied := by
  refine ⟨?_, rfl, rfl, rfl, rfl, rfl, rfl⟩
  intro s sn h
  constructor
  · simp only [jump_to_next_snippet_placeholder, h]
    cases hget : sn.get? (findCurrentPlaceholder sn s.editor.cursor.offset + 1) <;>
      split_ifs with hlast <;> simp [h, hlast]
  · intro t hget
    simp only [jump_to_next_snippet_placeholder, h, hget]
    split_ifs <;> rfl

/-- Counterexample to C2 as frozen: for the snippet
`foo($\x7b1:a\x7d, $\x7b2:b\x7d)` the placeholder set is already cleared
by the first next-tab-stop (which lands on, but does not go past, the last
stop), and the "further" next-tab-stop is a complete no-op — it cannot be
the call that clears the set. -/
theorem claim_C2_counterexample :
    (jump_to_next_snippet_placeholder snippetScenarioApplied).editor.snippet = none
    ∧ jump_to_next_snippet_placeholder (jump_to_next_snippet_placeholder snippetScenarioApplied)
        = jump_to_next_snippet_placeholder snippetScenarioApplied :=
  ⟨rfl, rfl⟩

/-- Witness for C2's amended clearing rule, instantiated at the scenario
state: the set is cleared because the target index reaches the last
stop. -/
theorem claim_C2_witness :
    ((jump_to_next_snippet_placeholder snippetScenarioApplied).editor.snippet = none
      ↔ ([(1, (4, 5)), (2, (7, 8))] : List (Nat × (Nat × Nat))).length - 1
          ≤ findCurrentPlaceholder [(1, (4, 5)), (2, (7, 8))]
              snippetScenarioApplied.editor.cursor.offset + 1) :=
  ((claim_C2_snippet_navigation.1 snippetScenarioApplied [(1, (4, 5)), (2, (7, 8))] rfl).1)

/-!  C4. -/

/-- The state reached during jump-history traversal that started at the
head of `s`: the current position has been pushed, the index sits at `k`,
and the cursor is at the location with index `k`. -/
def jumpMid (s : LapceEditorBufferData) (k : Nat) : LapceEditorBufferData :=
  { s with editor := { s.editor with
      locations := s.editor.locations ++ [s.editor.cursor.offset]
      current_location := k
      cursor := { s.editor.cursor with
        offset := (s.editor.locations ++ [s.editor.cursor.offset]).getD k 0 } } }

/-- In-bounds `get?` produces the `getD` value. -/
theorem get?_eq_some_getD {l : List Nat} {n : Nat} (h : n < l.length) :
    l.get? n = some (l.getD n 0) := by
  rw [List.get?_eq_getElem?, List.getD_eq_getElem?_getD, List.getElem?_eq_getElem h]
  rfl

/-- The first backward call from the head pushes the current position and
steps onto the last stored location. -/
theorem jump_location_backward_head (s : LapceEditorBufferData)
    (h : s.editor.current_location = s.editor.locations.length)
    (hL : 1 ≤ s.editor.locations.length) :
    jump_location_backward s = jumpMid s (s.editor.locations.length - 1) := by
  have h1 : ¬ s.editor.current_location < 1 := by omega
  have h2 : s.editor.locations.length ≤ s.editor.current_location := by omega
  have hlt : s.editor.locations.length - 1
      < (s.editor.locations ++ [s.editor.cursor.offset]).length := by
    simp
    omega
  simp only [jump_location_backward, if_neg h1, if_pos h2,
    LapceEditorData.save_jump_location]
  rw [show (s.editor.locations ++ [s.editor.cursor.offset]).length - 1 - 1
      = s.editor.locations.length - 1 by
    simp only [List.length_append, List.length_cons, List.length_nil]
    omega]
  rw [get?_eq_some_getD hlt]
  rfl

/-- A backward call inside the traversal steps the index down by one (and
is a no-op at the bottom). -/
theorem jump_location_backward_mid (s : LapceEditorBufferData) (k : Nat)
    (hk : k ≤ s.editor.locations.length) :
    jump_location_backward (jumpMid s k) = jumpMid s (k - 1) := by
  by_cases h0 : k = 0
  · subst h0
    simp [jump_location_backward, jumpMid]
  · have h1 : ¬ (jumpMid s k).editor.current_location < 1 := by
      simp [jumpMid]
      omega
    have h2 : ¬ (jumpMid s k).editor.locations.length
        ≤ (jumpMid s k).editor.current_location := by
      simp [jumpMid]
      omega
    have hlt : k - 1 < (s.editor.locations ++ [s.editor.cursor.offset]).length := by
      simp
      omega
    simp only [jump_location_backward, if_neg h1, if_neg h2]
    show (match (s.editor.locations ++ [s.editor.cursor.offset]).get? (k - 1) with
      | some l => _
      | none => _) = _
    rw [get?_eq_some_getD hlt]
    rfl

/-- A forward call inside the traversal steps the index up by one while it
is below the head. -/
theorem jump_location_forward_mid (s : LapceEditorBufferData) (k : Nat)
    (hk : k < s.editor.locations.length) :
    jump_location_forward (jumpMid s k) = jumpMid s (k + 1) := by
  have he : (jumpMid s k).editor.locations.isEmpty = false := by
    simp [jumpMid]
  have h2 : ¬ (jumpMid s k).editor.locations.length - 1
      ≤ (jumpMid s k).editor.current_location := by
    simp [jumpMid]
    omega
  have hlt : k + 1 < (s.editor.locations ++ [s.editor.cursor.offset]).length := by
    simp
    omega
  simp only [jump_location_forward, he, Bool.false_eq_true, if_false, if_neg h2]
  show (match (s.editor.locations ++ [s.editor.cursor.offset]).get? (k + 1) with
    | some l => _
    | none => _) = _
  rw [get?_eq_some_getD hlt]
  rfl

/-- A forward call at the head of the traversal is a no-op. -/
theorem jump_location_forward_top (s : LapceEditorBufferData) (k : Nat)
    (hk : s.editor.locations.length ≤ k) :
    jump_location_forward (jumpMid s k) = jumpMid s k := by
  have he : (jumpMid s k).editor.locations.isEmpty = false := by
    simp [jumpMid]
  have h2 : (jumpMid s k).editor.locations.length - 1
      ≤ (jumpMid s k).editor.current_location := by
    simp [jumpMid]
    omega
  simp only [jump_location_forward, he, Bool.false_eq_true, if_false, if_pos h2]

/-- Iterated backward navigation from the head lands on index
`length - N`. -/
theorem jump_location_backward_iter (s : LapceEditorBufferData)
    (h : s.editor.current_location = s.editor.locations.length)
    (hL : 1 ≤ s.editor.locations.length) :
    ∀ N : Nat, (jump_location_backward)^[N + 1] s
      = jumpMid s (s.editor.locations.length - (N + 1)) := by
  intro N
  induction N with
  | zero => simpa using jump_location_backward_head s h hL
  | succ M ih =>
    rw [Function.iterate_succ_apply', ih, jump_location_backward_mid s _ (by omega)]
    congr 1

/-- Iterated forward navigation inside the traversal climbs back up,
stopping at the head. -/
theorem jump_location_forward_iter (s : LapceEditorBufferData) :
    ∀ (M k : Nat), k ≤ s.editor.locations.length →
      (jump_location_forward)^[M] (jumpMid s k)
        = jumpMid s (min (k + M) s.editor.locations.length) := by
  intro M
  induction M with
  | zero =>
    intro k hk
    simp [Nat.min_eq_left hk]
  | succ M ih =>
    intro k hk
    rw [Function.iterate_succ_apply]
    by_cases hlt : k < s.editor.locations.length
    · rw [jump_location_forward_mid s k hlt, ih (k + 1) (by omega)]
      congr 1
      omega
    · rw [jump_location_forward_top s k (by omega),
        ih k hk]
      congr 1
      omega

/-- The cursor offset stored at the head of the traversal is the original
cursor offset. -/
theorem jumpMid_top_offset (s : LapceEditorBufferData) :
    (jumpMid s s.editor.locations.length).editor.cursor.offset
      = s.editor.cursor.offset := by
  simp [jumpMid, List.getD_eq_getElem?_getD, List.getElem?_concat_length]

/-- C4 (amended): starting from the head of the jump history
(`current_location = locations.len()`), N `jump_location_backward` calls
followed by N `jump_location_forward` calls return the cursor to its
original position; forward navigation is a no-op unless
`current_location < locations.len() - 1`; and the first backward call from
a non-empty head pushes the current position exactly once. -/
theorem claim_C4_jump_history_round_trip (s : LapceEditorBufferData) (N : Nat)
    (h : s.editor.current_location = s.editor.locations.length) :
    ((jump_location_forward)^[N] ((jump_location_backward)^[N] s)).editor.cursor.offset
      = s.editor.cursor.offset
    ∧ (∀ s2 : LapceEditorBufferData,
        ¬ s2.editor.current_location < s2.editor.locations.length - 1 →
        jump_location_forward s2 = s2)
    ∧ (1 ≤ s.editor.locations.length →
        (jump_location_backward s).editor.locations
          = s.editor.locations ++ [s.editor.cursor.offset]) := by
  refine ⟨?_, ?_, ?_⟩
  · by_cases hL : 1 ≤ s.editor.locations.length
    · cases N with
      | zero => rfl
      | succ M =>
        rw [jump_location_backward_iter s h hL M,
          jump_location_forward_iter s (M + 1) _ (by omega)]
        rw [show min (s.editor.locations.length - (M + 1) + (M + 1))
            s.editor.locations.length = s.editor.locations.length by omega]
        exact jumpMid_top_offset s
    · have hL0 : s.editor.locations.length = 0 := by omega
      have hc : s.editor.current_location = 0 := by omega
      have hb : jump_location_backward s = s := by
        simp [jump_location_backward, hc]
      have hf : jump_location_forward s = s := by
        have he : s.editor.locations.isEmpty = true := by
          simp [List.isEmpty_iff, List.eq_nil_of_length_eq_zero hL0]
        simp [jump_location_forward, he]
      rw [Function.iterate_fixed hb, Function.iterate_fixed hf]
  · intro s2 h2
    by_cases he : s2.editor.locations.isEmpty
    · simp [jump_location_forward, he]
    · simp [jump_location_forward, he, Nat.not_lt.mp h2]
  · intro hL
    rw [jump_location_backward_head s h hL]
    rfl

/-- State at the bottom of a jump history: three stored locations, index
0, cursor parked on the first location. -/
def c4BottomState : LapceEditorBufferData :=
  { editor := { view_id := 1, content := 0
                cursor := { offset := 10, insertSel := none, mode := Mode.Normal
                            history_selections := [] }
                snippet := none, locations := [10, 20, 30], current_location := 0
                last_movement_new := 0 }
    doc := { buffer := c5Buffer, content := 0, isFileContent := true, loaded := true
             id := 5, rev := 0, editLog := [] }
    completion := { status := CompletionStatus.Inactive, offset := 0, buffer_id := 0
                    input := "", input_items := [], request_id := 0, requests_sent := [] }
    hover := { status := HoverStatus.Inactive, offset := 0, buffer_id := 0, request_id := 0 }
    editors := [] }

/-- Counterexample to C4 as frozen: from the bottom of the jump history
(`current_location = 0`, cursor at location 10) one backward call is a
no-op but the following forward call moves the cursor to location 20, so
N backward calls followed by N forward calls do not restore the cursor
for every editor state. -/
theorem claim_C4_counterexample :
    (jump_location_forward (jump_location_backward c4BottomState)).editor.cursor.offset = 20
    ∧ c4BottomState.editor.cursor.offset = 10 :=
  ⟨rfl, rfl⟩

/-- Head state for the C4 witness: two stored locations, index at the
head, cursor at offset 30. -/
def c4HeadState : LapceEditorBufferData :=
  { editor := { view_id := 1, content := 0
                cursor := { offset := 30, insertSel := none, mode := Mode.Normal
                            history_selections := [] }
                snippet := none, locations := [10, 20], current_location := 2
                last_movement_new := 0 }
    doc := { buffer := c5Buffer, content := 0, isFileContent := true, loaded := true
             id := 5, rev := 0, editLog := [] }
    completion := { status := CompletionStatus.Inactive, offset := 0, buffer_id := 0
                    input := "", input_items := [], request_id := 0, requests_sent := [] }
    hover := { status := HoverStatus.Inactive, offset := 0, buffer_id := 0, request_id := 0 }
    editors := [] }

/-- Witness for C4: from a concrete head state, two backward calls
followed by two forward calls restore the cursor offset 30. -/
theorem claim_C4_witness :
    ((jump_location_forward)^[2] ((jump_location_backward)^[2] c4HeadState)).editor.cursor.offset
      = c4HeadState.editor.cursor.offset
    ∧ (1 ≤ c4HeadState.editor.locations.length →
        (jump_location_backward c4HeadState).editor.locations
          = c4HeadState.editor.locations ++ [c4HeadState.editor.cursor.offset]) := by
  have h := claim_C4_jump_history_round_trip c4HeadState 2 rfl
  exact ⟨h.1, h.2.2⟩

/-!  C6. -/

/-- C6 (amended): when `update_completion` runs in insert mode on a loaded
file document past the empty-input guard while the session is not
`Inactive`: if both the anchor (`completion.offset` equals the word-start
offset) and the buffer id are unchanged, the session is reused —
`request_id` is not incremented, cached `input_items` entries are kept,
and a request is issued exactly for each input key (`""` and the current
input) that is not already cached and whose offset converts to a protocol
position; otherwise the session is reset — `input_items` is cleared,
`request_id` is incremented by one, status becomes `Started`, and the
anchor offset and buffer id are updated. -/
theorem claim_C6_update_completion_session (s : LapceEditorBufferData)
    (display_if_empty_input : Bool)
    (hmode : s.get_mode = Mode.Insert)
    (hload : s.doc.loaded = true)
    (hfile : s.doc.isFileContent = true)
    (hguard : ¬ (¬ display_if_empty_input = true ∧ completionInput s = ""
        ∧ completionChar s ≠ "." ∧ completionChar s ≠ ":"))
    (hactive : s.completion.status ≠ CompletionStatus.Inactive) :
    ((s.completion.offset = completionStartOffset s ∧ s.completion.buffer_id = s.doc.id) →
      ((update_completion s display_if_empty_input).completion.request_id
          = s.completion.request_id
        ∧ (update_completion s display_if_empty_input).completion.input_items
          = s.completion.input_items
        ∧ (update_completion s display_if_empty_input).completion.requests_sent
          = s.completion.requests_sent
            ++ (if ¬ s.completion.input_items.contains "" = true
                  ∧ (s.doc.buffer.offset_to_position (completionStartOffset s)).isSome = true
                then [(s.completion.request_id, "")] else [])
            ++ (if ¬ s.completion.input_items.contains (completionInput s) = true
                  ∧ (s.doc.buffer.offset_to_position s.editor.cursor.offset).isSome = true
                then [(s.completion.request_id, completionInput s)] else [])))
    ∧ (¬ (s.completion.offset = completionStartOffset s ∧ s.completion.buffer_id = s.doc.id) →
      ((update_completion s display_if_empty_input).completion.request_id
          = s.completion.request_id + 1
        ∧ (update_completion s display_if_empty_input).completion.status
          = CompletionStatus.Started
        ∧ (update_completion s display_if_empty_input).completion.input_items = []
        ∧ (update_completion s display_if_empty_input).completion.offset
          = completionStartOffset s
        ∧ (update_completion s display_if_empty_input).completion.buffer_id = s.doc.id)) := by
  have hm : ¬ s.get_mode ≠ Mode.Insert := by simp [hmode]
  have hl : ¬ ¬ s.doc.loaded = true := by simp [hload]
  have hf : ¬ ¬ s.doc.isFileContent = true := by simp [hfile]
  constructor
  · rintro ⟨ho, hb⟩
    have hcond : s.completion.status ≠ CompletionStatus.Inactive
        ∧ s.completion.offset = completionStartOffset s
        ∧ s.completion.buffer_id = s.doc.id := ⟨hactive, ho, hb⟩
    simp only [update_completion, if_neg hm, if_neg hl, if_neg hf, if_neg hguard,
      if_pos hcond]
    rcases hsp : s.doc.buffer.offset_to_position (completionStartOffset s) with _ | p1 <;>
      rcases hip : s.doc.buffer.offset_to_position s.editor.cursor.offset with _ | p2 <;>
      by_cases hc1 : "" ∈ s.completion.input_items <;>
      by_cases hc2 : completionInput s ∈ s.completion.input_items <;>
      simp [hsp, hip, hc1, hc2, CompletionData.update_input, CompletionData.request]
  · intro hanchor
    have hcond : ¬ (s.completion.status ≠ CompletionStatus.Inactive
        ∧ s.completion.offset = completionStartOffset s
        ∧ s.completion.buffer_id = s.doc.id) := by
      rintro ⟨_, h2, h3⟩
      exact hanchor ⟨h2, h3⟩
    simp only [update_completion, if_neg hm, if_neg hl, if_neg hf, if_neg hguard,
      if_neg hcond]
    rcases hsp : s.doc.buffer.offset_to_position (completionStartOffset s) with _ | p1 <;>
      rcases hip : s.doc.buffer.offset_to_position s.editor.cursor.offset with _ | p2 <;>
      by_cases hi : completionInput s ≠ "" <;>
      simp [hsp, hip, hi, CompletionData.request]

/-- State for the C6 counterexample: normal mode, a `Started` session with
request id 7 whose anchor (offset 5) differs from the word-start offset
(0). -/
def c6NormalModeState : LapceEditorBufferData :=
  { editor := { view_id := 1, content := 0
                cursor := { offset := 0, insertSel := none, mode := Mode.Normal
                            history_selections := [] }
                snippet := none, locations := [], current_location := 0
                last_movement_new := 0 }
    doc := { buffer := snippetScenarioBuffer, content := 0, isFileContent := true
             loaded := true, id := 9, rev := 0, editLog := [] }
    completion := { status := CompletionStatus.Started, offset := 5, buffer_id := 9
                    input := "", input_items := [], request_id := 7, requests_sent := [] }
    hover := { status := HoverStatus.Inactive, offset := 0, buffer_id := 0, request_id := 0 }
    editors := [] }

/-- Counterexample to C6 as frozen: with a non-inactive session whose
anchor changed but the editor in normal mode, `update_completion` cancels
the session (status `Inactive`, request id untouched) instead of
resetting it (status `Started`, request id incremented). -/
theorem claim_C6_counterexample :
    c6NormalModeState.completion.status ≠ CompletionStatus.Inactive
    ∧ c6NormalModeState.completion.offset ≠ completionStartOffset c6NormalModeState
    ∧ (update_completion c6NormalModeState false).completion.status
        = CompletionStatus.Inactive
    ∧ (update_completion c6NormalModeState false).completion.request_id = 7 := by
  refine ⟨by decide, by decide, rfl, rfl⟩

/-- State for the C6 witness: insert mode, a `Started` session with
request id 7 anchored at the current word start on the same buffer. -/
def c6InsertState : LapceEditorBufferData :=
  { editor := { view_id := 1, content := 0
                cursor := { offset := 0, insertSel := none, mode := Mode.Insert
                            history_selections := [] }
                snippet := none, locations := [], current_location := 0
                last_movement_new := 0 }
    doc := { buffer := snippetScenarioBuffer, content := 0, isFileContent := true
             loaded := true, id := 9, rev := 0, editLog := [] }
    completion := { status := CompletionStatus.Started, offset := 0, buffer_id := 9
                    input := "", input_items := [], request_id := 7, requests_sent := [] }
    hover := { status := HoverStatus.Inactive, offset := 0, buffer_id := 0, request_id := 0 }
    editors := [] }

/-- Witness for C6: reusing an unchanged session keeps the request id and
cache and issues the two uncached requests under the current id. -/
theorem claim_C6_witness :
    (update_completion c6InsertState true).completion.request_id = 7
    ∧ (update_completion c6InsertState true).completion.input_items = []
    ∧ (update_completion c6InsertState true).completion.requests_sent
        = [(7, ""), (7, "")] := by
  have h := (claim_C6_update_completion_session c6InsertState true rfl rfl rfl
    (by simp) (by decide)).1 ⟨rfl, rfl⟩
  refine ⟨h.1, h.2.1, ?_⟩
  rw [h.2.2]
  rfl

/-!  C3 and C9: the next-diff cascade. -/

/-- The `offsets[0]` access of the loop: the first offset of a file entry,
or a panic when the entry has no offsets. -/
def headPanic (e : String × List Nat) : PanicOr (String × Nat) :=
  match e.2.head? with
  | some d => PanicOr.ok (e.1, d)
  | none => PanicOr.panic

/-- The path order is irreflexive. -/
theorem pathLt_irrefl (a : String) : ¬ pathLt a a :=
  lt_irrefl a.data

/-- The path order is transitive. -/
theorem pathLt_trans {a b c : String} (h1 : pathLt a b) (h2 : pathLt b c) : pathLt a c :=
  lt_trans h1 h2

/-- Strictly ordered paths are distinct. -/
theorem ne_of_pathLt {a b : String} (h : pathLt a b) : a ≠ b :=
  fun he => absurd (he ▸ h) (pathLt_irrefl b)

/-- Path-order trichotomy: two distinct paths compare one way or the
other. -/
theorem pathLt_of_ne_of_not_pathLt {a b : String} (hne : a ≠ b) (h : ¬ pathLt a b) :
    pathLt b a := by
  rcases lt_trichotomy a.data b.data with h1 | h1 | h1
  · exact absurd h1 h
  · exact absurd (String.ext h1) hne
  · exact h1

/-- A lookup over entries whose keys all differ from the key misses. -/
theorem lookup_eq_none_of_forall_ne {l : List (String × List Nat)} {k : String}
    (h : ∀ p ∈ l, k ≠ p.1) : l.lookup k = none := by
  induction l with
  | nil => rfl
  | cons a t ih =>
    have hk : (k == a.1) = false := beq_eq_false_iff_ne.mpr (h a (List.mem_cons_self a t))
    simp only [List.lookup, hk]
    exact ih (fun p hp => h p (List.mem_cons_of_mem a hp))

/-- Characterization of the `next_in_file_diff_offset` loop over a
path-sorted list: it returns the first strictly-greater offset of the
current file's entry if any, else the head offset (or a panic) of the
first entry whose path exceeds the current path, else falls through. -/
theorem nextInFileDiffLoop_eq (offset : Nat) (path : String) :
    ∀ fds : List (String × List Nat),
      List.Pairwise (fun a b => pathLt a.1 b.1) fds →
      nextInFileDiffLoop offset path fds =
        match currentFileHit offset path fds with
        | some d => some (PanicOr.ok (path, d))
        | none =>
          match fds.find? (fun e => decide (pathLt path e.1)) with
          | some e => some (headPanic e)
          | none => none := by
  intro fds
  induction fds with
  | nil => intro _; rfl
  | cons e rest ih =>
    obtain ⟨p, offs⟩ := e
    intro hp
    have hall : ∀ b ∈ rest, pathLt p b.1 := by
      intro b hb
      exact (List.pairwise_cons.mp hp).1 b hb
    have hrest := (List.pairwise_cons.mp hp).2
    by_cases hpe : path = p
    · subst hpe
      cases hfind : offs.find? (fun d => decide (offset < d)) with
      | some d =>
        simp [nextInFileDiffLoop, currentFileHit, List.lookup, hfind]
      | none =>
        have hirr : ¬ pathLt path path := pathLt_irrefl path
        have hlook : rest.lookup path = none :=
          lookup_eq_none_of_forall_ne (fun b hb => ne_of_pathLt (hall b hb))
        have hcur : currentFileHit offset path ((path, offs) :: rest) = none := by
          simp [currentFileHit, List.lookup, hfind]
        have hcurr : currentFileHit offset path rest = none := by
          simp [currentFileHit, hlook]
        have hfr : List.find? (fun e => decide (pathLt path e.1)) ((path, offs) :: rest)
            = List.find? (fun e => decide (pathLt path e.1)) rest := by
          rw [List.find?_cons_of_neg]
          simp [hirr]
        simp only [nextInFileDiffLoop, eq_self_iff_true, if_true, hfind, if_neg hirr]
        rw [ih hrest, hcurr, hcur, hfr]
    · have hbeq : (path == p) = false := beq_eq_false_iff_ne.mpr hpe
      by_cases hplt : pathLt path p
      · have hlookrest : rest.lookup path = none :=
          lookup_eq_none_of_forall_ne
            (fun b hb => ne_of_pathLt (pathLt_trans hplt (hall b hb)))
        have hcur : currentFileHit offset path ((p, offs) :: rest) = none := by
          simp [currentFileHit, List.lookup, hbeq, hlookrest]
        have hff : List.find? (fun e => decide (pathLt path e.1)) ((p, offs) :: rest)
            = some (p, offs) := by
          rw [List.find?_cons_of_pos]
          simp [hplt]
        rw [hcur, hff]
        simp only [nextInFileDiffLoop, if_neg hpe, if_pos hplt]
        cases hh : offs.head? <;> simp [headPanic, hh]
      · have hcureq : currentFileHit offset path ((p, offs) :: rest)
            = currentFileHit offset path rest := by
          simp [currentFileHit, List.lookup, hbeq]
        have hfr : List.find? (fun e => decide (pathLt path e.1)) ((p, offs) :: rest)
            = List.find? (fun e => decide (pathLt path e.1)) rest := by
          rw [List.find?_cons_of_neg]
          simp [hplt]
        simp only [nextInFileDiffLoop, if_neg hpe, if_neg hplt]
        rw [ih hrest, hcureq, hfr]

/-- Full characterization of `next_in_file_diff_offset` over a path-sorted
list, including the wraparound to the first entry. -/
theorem next_in_file_diff_offset_eq (offset : Nat) (path : String)
    (fds : List (String × List Nat))
    (hs : List.Pairwise (fun a b => pathLt a.1 b.1) fds) :
    next_in_file_diff_offset offset path fds =
      match currentFileHit offset path fds with
      | some d => PanicOr.ok (path, d)
      | none =>
        match fds.find? (fun e => decide (pathLt path e.1)) with
        | some e => headPanic e
        | none =>
          match fds.head? with
          | some e => headPanic e
          | none => PanicOr.panic := by
  unfold next_in_file_diff_offset
  rw [nextInFileDiffLoop_eq offset path fds hs]
  cases currentFileHit offset path fds with
  | some d => rfl
  | none =>
    cases fds.find? (fun e => decide (pathLt path e.1)) with
    | some e => rfl
    | none =>
      cases hh : fds.head? with
      | some e => cases hh2 : e.2.head? <;> simp [headPanic, hh2]
      | none => rfl

/-- The `next_diff` normalization always yields a non-empty positions
list. -/
theorem nextDiffPositions_ne_nil (l : List Nat) : nextDiffPositions l ≠ [] := by
  unfold nextDiffPositions
  split
  · simp
  next h => simpa [List.isEmpty_iff] using h

/-!  C3. -/

/-- C3: over a non-empty path-sorted list with non-empty per-file offset
lists, `next_in_file_diff_offset` returns the first offset strictly
greater than the current one within the current file's list; failing that,
the first offset of the lexicographically next file by path; failing that,
the first offset of the very first file (wraparound) — i.e. it agrees with
the spec-side cascade `nextDiffSpec`.  The three concrete examples of the
claim evaluate as stated. -/
theorem claim_C3_next_in_file_diff_offset (offset : Nat) (path : String)
    (fds : List (String × List Nat))
    (hs : List.Pairwise (fun a b => pathLt a.1 b.1) fds)
    (hne : fds ≠ [])
    (hoffs : ∀ e ∈ fds, e.2 ≠ []) :
    (∃ r, nextDiffSpec offset path fds = some r
        ∧ next_in_file_diff_offset offset path fds = PanicOr.ok r)
    ∧ next_in_file_diff_offset 10 "a.rs" [("a.rs", [10, 50]), ("b.rs", [5])]
        = PanicOr.ok ("a.rs", 50)
    ∧ next_in_file_diff_offset 50 "a.rs" [("a.rs", [10, 50]), ("b.rs", [5])]
        = PanicOr.ok ("b.rs", 5)
    ∧ next_in_file_diff_offset 5 "b.rs" [("a.rs", [10, 50]), ("b.rs", [5])]
        = PanicOr.ok ("a.rs", 10) := by
  refine ⟨?_, rfl, rfl, rfl⟩
  rw [next_in_file_diff_offset_eq offset path fds hs]
  cases hcur : currentFileHit offset path fds with
  | some d => exact ⟨(path, d), by simp [nextDiffSpec, hcur], rfl⟩
  | none =>
    cases hf : fds.find? (fun e => decide (pathLt path e.1)) with
    | some e =>
      have he : e ∈ fds := List.mem_of_find?_eq_some hf
      cases hh : e.2.head? with
      | none =>
        exact absurd (List.head?_eq_none_iff.mp hh) (hoffs e he)
      | some d =>
        exact ⟨(e.1, d), by simp [nextDiffSpec, hcur, hf, hh], by simp [headPanic, hh]⟩
    | none =>
      cases hfds : fds with
      | nil => exact absurd hfds hne
      | cons e0 t =>
        subst hfds
        cases hh2 : e0.2.head? with
        | none =>
          exact absurd (List.head?_eq_none_iff.mp hh2)
            (hoffs e0 (List.mem_cons_self e0 t))
        | some d =>
          refine ⟨(e0.1, d), ?_, ?_⟩
          · simp [nextDiffSpec, hcur, hf, hh2]
          · simp [headPanic, hh2]

/-- Witness for C3: the cascade applied to the claim's concrete list at
current position `("a.rs", 10)`. -/
theorem claim_C3_witness :
    ∃ r, nextDiffSpec 10 "a.rs" [("a.rs", [10, 50]), ("b.rs", [5])] = some r
      ∧ next_in_file_diff_offset 10 "a.rs" [("a.rs", [10, 50]), ("b.rs", [5])]
        = PanicOr.ok r :=
  (claim_C3_next_in_file_diff_offset 10 "a.rs" [("a.rs", [10, 50]), ("b.rs", [5])]
    (by decide) (by decide) (by decide)).1

/-!  C9. -/

/-- The loop never panics when every entry's offsets list is non-empty. -/
theorem nextInFileDiffLoop_no_panic (offset : Nat) (path : String) :
    ∀ fds : List (String × List Nat), (∀ e ∈ fds, e.2 ≠ []) →
      nextInFileDiffLoop offset path fds ≠ some PanicOr.panic := by
  intro fds
  induction fds with
  | nil => intro _ h; simp [nextInFileDiffLoop] at h
  | cons e rest ih =>
    intro hoffs
    obtain ⟨p, offs⟩ := e
    simp only [nextInFileDiffLoop]
    cases hfind : (if path = p then offs.find? (fun d => decide (offset < d)) else none) with
    | some d => simp [hfind]
    | none =>
      by_cases hplt : pathLt path p
      · rw [if_pos hplt]
        cases hh : offs.head? with
        | some d => simp
        | none =>
          exact absurd (List.head?_eq_none_iff.mp hh)
            (hoffs (p, offs) (List.mem_cons_self _ _))
      · rw [if_neg hplt]
        exact ih (fun b hb => hoffs b (List.mem_cons_of_mem _ hb))

/-- C9 (amended): `next_in_file_diff_offset` is total under the
precondition that `file_diffs` is non-empty and every per-file offsets
list is non-empty — every index access is then in bounds and the function
returns a value.  On an empty `file_diffs` it panics for every input.
Over a path-sorted list, a panic happens exactly when the current file has
no strictly-greater offset and the access that the cascade then performs —
`offsets[0]` of the first file strictly after the current path, or
`file_diffs[0].1[0]` on wraparound — hits an empty list.  The caller
`next_diff` establishes the precondition by pushing offset 0 for any file
with no computed positions. -/
theorem claim_C9_next_in_file_diff_offset_safety :
    (∀ (offset : Nat) (path : String) (fds : List (String × List Nat)),
        fds ≠ [] → (∀ e ∈ fds, e.2 ≠ []) →
        ∃ r, next_in_file_diff_offset offset path fds = PanicOr.ok r)
    ∧ (∀ (offset : Nat) (path : String),
        next_in_file_diff_offset offset path [] = PanicOr.panic)
    ∧ (∀ (offset : Nat) (path : String) (fds : List (String × List Nat)),
        List.Pairwise (fun a b => pathLt a.1 b.1) fds →
        (next_in_file_diff_offset offset path fds = PanicOr.panic ↔
          fds = [] ∨ (currentFileHit offset path fds = none ∧
            ((∃ e, fds.find? (fun e => decide (pathLt path e.1)) = some e ∧ e.2 = [])
             ∨ (fds.find? (fun e => decide (pathLt path e.1)) = none
                ∧ ∃ e0, fds.head? = some e0 ∧ e0.2 = [])))))
    ∧ (∀ ps : List (String × List Nat),
        ∀ e ∈ ps.map (fun q => (q.1, nextDiffPositions q.2)), e.2 ≠ []) := by
  refine ⟨?_, ?_, ?_, ?_⟩
  · intro offset path fds hne hoffs
    cases hl : nextInFileDiffLoop offset path fds with
    | some r =>
      cases r with
      | panic => exact absurd hl (nextInFileDiffLoop_no_panic offset path fds hoffs)
      | ok v =>
        refine ⟨v, ?_⟩
        unfold next_in_file_diff_offset
        rw [hl]
    | none =>
      cases hfds : fds with
      | nil => exact absurd hfds hne
      | cons e0 t =>
        subst hfds
        cases hh2 : e0.2.head? with
        | none =>
          exact absurd (List.head?_eq_none_iff.mp hh2)
            (hoffs e0 (List.mem_cons_self e0 t))
        | some d =>
          refine ⟨(e0.1, d), ?_⟩
          unfold next_in_file_diff_offset
          rw [hl]
          simp [hh2]
  · intro offset path
    rfl
  · intro offset path fds hsort
    rw [next_in_file_diff_offset_eq offset path fds hsort]
    cases hcur : currentFileHit offset path fds with
    | some d =>
      have hne : fds ≠ [] := by
        rintro rfl
        simp [currentFileHit] at hcur
      simp [hcur, hne]
    | none =>
      cases hf : fds.find? (fun e => decide (pathLt path e.1)) with
      | some e =>
        have hne : fds ≠ [] := by
          rintro rfl
          simp at hf
        cases hh : e.2.head? with
        | some d =>
          have h2 : e.2 ≠ [] := by
            rintro h0
            rw [h0] at hh
            simp at hh
          simp [headPanic, hh, hcur, hf, hne, h2]
        | none =>
          have h2 : e.2 = [] := List.head?_eq_none_iff.mp hh
          simp [headPanic, hh, hcur, hf, hne, h2]
      | none =>
        cases hh : fds.head? with
        | none =>
          have : fds = [] := List.head?_eq_none_iff.mp hh
          subst this
          simp
        | some e0 =>
          have hne : fds ≠ [] := by
            rintro rfl
            simp at hh
          cases hh2 : e0.2.head? with
          | some d =>
            have h2 : e0.2 ≠ [] := by
              rintro h0
              rw [h0] at hh2
              simp at hh2
            simp [headPanic, hh2, hcur, hf, hh, hne, h2]
          | none =>
            have h2 : e0.2 = [] := List.head?_eq_none_iff.mp hh2
            simp [headPanic, hh2, hcur, hf, hh, hne, h2]
  · intro ps e he
    rw [List.mem_map] at he
    rcases he with ⟨q, hq, rfl⟩
    exact nextDiffPositions_ne_nil q.2

/-- Counterexample to C9 as frozen: the list
`[("a.rs", [10]), ("b.rs", [])]` has an empty offsets list for `"b.rs"` —
a file at the current path — yet with current position `("b.rs", 0)` the
function does not panic: it wraps around and returns `("a.rs", 10)`. -/
theorem claim_C9_counterexample :
    next_in_file_diff_offset 0 "b.rs" [("a.rs", [10]), ("b.rs", [])]
      = PanicOr.ok ("a.rs", 10)
    ∧ next_in_file_diff_offset 0 "b.rs" [("a.rs", [10]), ("b.rs", [])]
      ≠ PanicOr.panic :=
  ⟨rfl, by decide⟩

/-- Witness for C9: totality on the claim's concrete well-formed list, and
the panic on the empty list. -/
theorem claim_C9_witness :
    (∃ r, next_in_file_diff_offset 5 "b.rs" [("a.rs", [10, 50]), ("b.rs", [5])]
        = PanicOr.ok r)
    ∧ next_in_file_diff_offset 0 "b.rs" [] = PanicOr.panic := by
  have h := claim_C9_next_in_file_diff_offset_safety
  exact ⟨h.1 5 "b.rs" _ (by decide) (by decide), h.2.1 0 "b.rs"⟩

/-!  Remaining witnesses. -/

/-- Editor state with a live single-placeholder snippet at range (4, 5),
used by the C7 and C8 witnesses. -/
def c7SnippetState : LapceEditorBufferData :=
  { editor := { view_id := 1, content := 0
                cursor := { offset := 4, insertSel := none, mode := Mode.Insert
                            history_selections := [] }
                snippet := some [(1, (4, 5))], locations := [], current_location := 0
                last_movement_new := 0 }
    doc := { buffer := snippetScenarioBuffer, content := 0, isFileContent := true
             loaded := true, id := 9, rev := 0, editLog := [] }
    completion := { status := CompletionStatus.Started, offset := 0, buffer_id := 9
                    input := "", input_items := [], request_id := 7, requests_sent := [] }
    hover := { status := HoverStatus.Started, offset := 0, buffer_id := 9, request_id := 3 }
    editors := [] }

/-- Witness for C7: a concrete move to offset 100 — outside the only live
placeholder — cancels both sessions and discards the snippet set. -/
theorem claim_C7_witness :
    (run_move_command c7SnippetState 100 3 false).completion.status
      = CompletionStatus.Inactive
    ∧ (run_move_command c7SnippetState 100 3 false).hover.status = HoverStatus.Inactive
    ∧ (run_move_command c7SnippetState 100 3 false).editor.snippet = none := by
  have h := claim_C7_run_move_command_cancels c7SnippetState 100 3 false
  exact ⟨h.1, h.2.1, h.2.2 [(1, (4, 5))] rfl (by decide)⟩

/-- Witness for C8: remapping the live placeholder through a delta that
inserts three characters at offset 0 shifts the whole range. -/
theorem claim_C8_witness :
    (update_snippet_offset c7SnippetState [SimpleEdit.mk 0 0 3]).editor.snippet
      = some ([(1, (4, 5))].map (fun t => (t.1,
          (transform [SimpleEdit.mk 0 0 3] t.2.1 false,
           transform [SimpleEdit.mk 0 0 3] t.2.2 true)))) :=
  (claim_C8_update_snippet_offset_bias c7SnippetState [SimpleEdit.mk 0 0 3]
    [(1, (4, 5))] rfl).1

/-- A command handler that bumps the document revision, standing in for an
edit command in the C10 witness. -/
def c10Bump : LapceEditorBufferData → LapceEditorBufferData :=
  fun st => { st with doc := { st.doc with rev := st.doc.rev + 1 } }

/-- Witness for C10: a revision-bumping command gets its
`history_selections` cleared by the post-step, and the identity command is
left untouched. -/
theorem claim_C10_witness :
    (run_command c10Bump c6InsertState).editor.cursor.history_selections = []
    ∧ run_command id c6InsertState = id c6InsertState := by
  have h1 := claim_C10_run_command_history c10Bump c6InsertState
  have h2 := claim_C10_run_command_history id c6InsertState
  exact ⟨h1.1 (Or.inr (by decide)), h2.2 rfl rfl⟩

end LapceEditor
